import Mathlib

/-!
Shallow embedding of `src/Controllers/ResourceController.js` from the
adonis-rest repository: a metadata-driven REST resource controller with
permission guarding, field filtering, query construction, export
serialization and mutation handlers.

External collaborators (the ORM/storage engine, the `inflection` library,
the validator attached to the entity object) are modelled as explicit
function parameters; the controller logic itself is translated line by
line from the source. JavaScript objects appearing in request/query
payloads are modelled as association lists of `String × JVal` with
JS assignment/delete semantics (`objSet`, `objDelete`). Side effects
(query execution, validation, persistence, deletion) are recorded in an
explicit effect trace returned alongside the handler result, so that
"aborts before any side effect" is expressible as an empty trace.
-/

namespace AdonisRest

/-- A JavaScript value as it appears in query/request payloads:
primitives, RegExp objects, arrays and plain objects (ordered key/value
association lists). -/
inductive JVal where
  | null : JVal
  | bool (b : Bool) : JVal
  | num (n : Int) : JVal
  | str (s : String) : JVal
  | regex (pattern : String) (flags : String) : JVal
  | arr (elems : List JVal) : JVal
  | obj (entries : List (String × JVal)) : JVal
deriving Repr

/-- JavaScript truthiness of a `JVal` (`if (v)`). -/
def jsTruthy : JVal → Bool
  | .null => false
  | .bool b => b
  | .num n => n != 0
  | .str s => s != ""
  | .regex _ _ => true
  | .arr _ => true
  | .obj _ => true

/-- JavaScript `String(v)` coercion, used when a payload value is fed to
`new RegExp(v, 'i')`. -/
def jsToString : JVal → String
  | .null => "null"
  | .bool b => if b then "true" else "false"
  | .num n => toString n
  | .str s => s
  | .regex p _ => p
  | .arr _ => ""
  | .obj _ => "[object Object]"

/-- A JS object field lookup `o[k]` (first binding wins, as in an object
with unique keys). -/
def objGet (o : List (String × JVal)) (k : String) : Option JVal :=
  (o.find? (fun kv => kv.1 == k)).map Prod.snd

/-- JS assignment `o[k] = v`: overwrite in place when the key exists,
append otherwise. -/
def objSet (o : List (String × JVal)) (k : String) (v : JVal) :
    List (String × JVal) :=
  if o.any (fun kv => kv.1 == k) then
    o.map (fun kv => if kv.1 == k then (k, v) else kv)
  else
    o ++ [(k, v)]

/-- JS `delete o[k]`. -/
def objDelete (o : List (String × JVal)) (k : String) :
    List (String × JVal) :=
  o.filter (fun kv => kv.1 != k)

/-- Splitting helper for the JS `String.prototype.split(c)` of a
one-character separator (empty segments preserved, as in JS). -/
def splitOnCharAux (c : Char) : List Char → List Char → List String
  | [], acc => [String.mk acc.reverse]
  | x :: rest, acc =>
    if x == c then String.mk acc.reverse :: splitOnCharAux c rest []
    else splitOnCharAux c rest (x :: acc)

/-- JS `s.split(c)` for a one-character separator. -/
def splitOnChar (c : Char) (s : String) : List String :=
  splitOnCharAux c s.data []

/-- JS `s.includes(' ')`. -/
def jsIncludesSpace (s : String) : Bool :=
  s.data.any (fun x => x == ' ')

/-- JS `_.assign`-style merge used by `model.merge(data)`: each key of
`data` is assigned into the model object in order. -/
def mergeObj (base data : List (String × JVal)) : List (String × JVal) :=
  data.foldl (fun acc kv => objSet acc kv.1 kv.2) base

/-- Per-field metadata from `Model.fields`. A missing attribute is
`none`; the source only ever tests for the explicit value `false`
(strict `=== false`) or reads `role`/`ref`/`label`. -/
structure FieldDescriptor where
  listable : Option Bool := none
  searchable : Option Bool := none
  editable : Option Bool := none
  viewable : Option Bool := none
  role : Option String := none
  ref : Option String := none
  label : Option String := none
  selectSize : Option Nat := none

/-- Lookup of `Model.fields[k]`; `none` models the JS value `undefined`. -/
def lookupField (fields : List (String × FieldDescriptor)) (k : String) :
    Option FieldDescriptor :=
  (fields.find? (fun kv => kv.1 == k)).map Prod.snd

/-- The requesting principal `auth.user`. `can` and `getPermissions` are
optional methods (the source tests `user.can && ...` and
`user.getPermissions && ...`); `isRole` is assumed present (every
authenticated actor exposes it). `userId` is the already-stringified
`String(user._id)`. -/
structure Actor where
  can : Option (String → Bool) := none
  getPermissions : Option (List String) := none
  isRole : Option String → Bool := fun _ => true
  userId : String := ""

/-- The inbound `ctx.query` object. -/
structure QuerySpec where
  whereC : List (String × JVal) := []
  page : Int := 1
  perPage : Option Nat := none
  withRel : Option (List String) := none
  appends : Option (List String) := none
  withTrash : Bool := false
deriving Repr

/-- Error taxonomy: `HttpException(msg, status)` from the source (403 for
guard failures, 400 for the import stub), raw JS `TypeError` for
undefined dereference, and validator failures. -/
inductive Err where
  | http (msg : String) (status : Nat) : Err
  | typeError (msg : String) : Err
  | validationError (msg : String) : Err
deriving Repr, DecidableEq

/-- The error thrown by `guard`: `new HttpException('No privileges.', 403)`. -/
def unauthorizedErr : Err := .http "No privileges." 403

/-- `guard(user, permission)` (source lines 10-15): throws `Unauthorized`
exactly when the user exists, has a `can` method, and `can(permission)`
is false; in every other case it falls through. -/
def guard (user : Option Actor) (permission : String) : Except Err Unit :=
  match user with
  | some u =>
    match u.can with
    | some canF => if canF permission then .ok () else .error unauthorizedErr
    | none => .ok ()
  | none => .ok ()

/-- A fetched database row, as consumed by `Model.getValue(row, k)` and
by the `destroyAll` deletion semantics. -/
abbrev Row : Type := List (String × String)

/-- The registered entity type: its field-descriptor table plus the
entity-level attributes and helpers the controller reads. `getValue` is
the entity-provided cell formatter used by `export`. -/
structure Model where
  fields : List (String × FieldDescriptor)
  label : Option String := none
  name : String := ""
  getValue : Row → String → String := fun _ _ => ""
  labels : List (String × String) := []

/-- The storage-engine query assembled by a handler before execution:
the (possibly mutated) query spec, selected columns, pagination
modifiers (`none` when `.skip`/`.limit` was never called), and whether
the soft-delete scope was disabled. -/
structure BuiltQuery where
  spec : QuerySpec
  select : List String
  skip : Option Int := none
  limit : Option Nat := none
  ignoreSoftDeletes : Bool := false
deriving Repr

/-- The external storage engine: `fetch` executes a built query,
`count` an unpaginated count, `groupedCount` is `Model.count(group)`
(rows of `{_id, count}`), `fetchOptions` is `Model.fetchOptions`. -/
structure Engine where
  fetch : BuiltQuery → List Row := fun _ => []
  count : QuerySpec → Nat := fun _ => 0
  groupedCount : String → List (String × Nat) := fun _ => []
  fetchOptions : String → String → List (String × JVal) → Int →
    List (String × String) := fun _ _ _ _ => []

/-- The per-request context destructured by the handlers: the entity
type, query spec, route resource name, actor, request body, the resolved
record (`model`), its validator, and `request.input`. -/
structure Ctx where
  Model : Model
  query : QuerySpec := {}
  resource : String := ""
  user : Option Actor := none
  reqAll : List (String × JVal) := []
  model : List (String × JVal) := []
  validate : List (String × JVal) → Except Err Unit := fun _ => .ok ()
  reqInput : String → Option String := fun _ => none

/-- One observable side effect of a handler: a data access, a mutation,
or an external call. Guard failures must produce an empty trace. -/
inductive Effect where
  | buildOptions : Effect
  | fetchQ (bq : BuiltQuery) : Effect
  | countQ (spec : QuerySpec) : Effect
  | fetchAppends (row : Row) (names : List String) : Effect
  | validateE (payload : List (String × JVal)) : Effect
  | saveE (merged : List (String × JVal)) : Effect
  | deleteModel : Effect
  | deleteWhere (whereC : List (String × JVal)) : Effect
  | groupedCountE (group : String) : Effect
  | fetchOptionsE (value : String) (text : String)
      (whereC : List (String × JVal)) (limit : Int) : Effect
  | writeFile : Effect
deriving Repr

/-- `processData` (source lines 16-23): when `query.appends` is present,
`row.fetchAppends(ctx, query.appends)` is awaited for every fetched row.
The rows themselves are mutated externally; here we record the calls. -/
def processData (query : QuerySpec) (rows : List Row) : List Effect :=
  match query.appends with
  | some names => rows.map (fun r => .fetchAppends r names)
  | none => []

/-- The default of `Config.get('rbac.restrict_field', 'user_ids')`. -/
def restrictFieldDefault : String := "user_ids"

/-- `Math.ceil(total / perPage)` for natural inputs and positive
`perPage`. -/
def jsCeilDiv (total perPage : Nat) : Nat := (total + perPage - 1) / perPage

/-- The `index` response object. -/
structure IndexResult where
  page : Int
  perPage : Nat
  total : Nat
  lastPage : Nat
  data : List Row
deriving Repr

/-- `index` (source lines 25-56). Guard on `resource.index`; if the
actor's permissions include `groups.@`, overwrite
`query.where[restrictField]` with `String(user._id)`; select listable
fields; paginate with `offset = (page - 1) * perPage`,
`limit = perPage` (`perPage` defaulting to 20); fetch, count, compute
`lastPage = Math.ceil(total / perPage)`, resolve appends. Note the
source dereferences `auth.user.getPermissions` unconditionally, so a
missing user raises a TypeError after the guard. -/
def indexH (restrictField : String) (eng : Engine) (ctx : Ctx) :
    List Effect × Except Err IndexResult :=
  match guard ctx.user (ctx.resource ++ ".index") with
  | .error e => ([], .error e)
  | .ok _ =>
    match ctx.user with
    | none =>
      ([], .error (.typeError "Cannot read properties of null (reading getPermissions)"))
    | some u =>
      let q :=
        match u.getPermissions with
        | some perms =>
          if perms.contains "groups.@" then
            { ctx.query with
              whereC := objSet ctx.query.whereC restrictField (.str u.userId) }
          else ctx.query
        | none => ctx.query
      let fields := ctx.Model.fields.filter (fun kv => !(kv.2.listable == some false))
      let perPage : Nat := q.perPage.getD 20
      let offset : Int := (q.page - 1) * (perPage : Int)
      let bq : BuiltQuery :=
        { spec := q, select := fields.map Prod.fst,
          skip := some offset, limit := some perPage,
          ignoreSoftDeletes := q.withTrash }
      let rows := eng.fetch bq
      let total := eng.count q
      let lastPage := jsCeilDiv total perPage
      ([.fetchQ bq, .countQ q] ++ processData q rows,
       .ok { page := q.page, perPage := perPage, total := total,
             lastPage := lastPage, data := rows })

/-- `import` (source lines 58-63): guard on `resource.import`, then
always `HttpException('Not implemented.', 400)`. -/
def importH (ctx : Ctx) : List Effect × Except Err Unit :=
  match guard ctx.user (ctx.resource ++ ".import") with
  | .error e => ([], .error e)
  | .ok _ => ([], .error (.http "Not implemented." 400))

/-- The field set selected by `export` (source line 69): drop fields
with `listable === false` and the system field `_actions`. -/
def exportFields (m : Model) : List (String × FieldDescriptor) :=
  m.fields.filter (fun kv => !(kv.2.listable == some false || kv.1 == "_actions"))

/-- JS `a || b` on an optional string attribute (an empty string is
falsy and also falls through to `b`). -/
def jsOrStr (a : Option String) (b : String) : String :=
  match a with
  | some s => if s == "" then b else s
  | none => b

/-- The `export` outcome: the executed query and the produced sheet
(header row followed by one row per record). -/
structure ExportResult where
  bq : BuiltQuery
  sheet : List (List String)
deriving Repr

/-- `export` (source lines 65-114). Guard on `resource.export`; build
the export field set; collect the first segment of each truthy `ref`
into the eager-load list appended to `query.with`; execute the query
WITHOUT `.skip`/`.limit` (the paginated query is commented out in the
source); header row = `field.label || titleize(key)` per field; one
subsequent row per fetched record, cells via `Model.getValue`. The
`inflection.titleize` library function is an explicit parameter. -/
def exportH (titleize : String → String) (eng : Engine) (ctx : Ctx) :
    List Effect × Except Err ExportResult :=
  match guard ctx.user (ctx.resource ++ ".export") with
  | .error e => ([], .error e)
  | .ok _ =>
    let fields := exportFields ctx.Model
    let populate := fields.filterMap (fun kv =>
      match kv.2.ref with
      | some r => if r == "" then none else some ((splitOnChar '.' r).headD "")
      | none => none)
    let q := { ctx.query with
               withRel := some ((ctx.query.withRel.getD []) ++ populate) }
    let bq : BuiltQuery :=
      { spec := q, select := fields.map Prod.fst,
        skip := none, limit := none,
        ignoreSoftDeletes := q.withTrash }
    let rows := eng.fetch bq
    let header := fields.map (fun kv => jsOrStr kv.2.label (titleize kv.1))
    let body := rows.map (fun row => fields.map (fun kv => ctx.Model.getValue row kv.1))
    ([.buildOptions, .fetchQ bq] ++ processData q rows ++ [.writeFile],
     .ok { bq := bq, sheet := header :: body })

/-- The `view` response object. -/
structure ViewResult where
  labels : List (String × String)
  fields : List (String × FieldDescriptor)
  model : List (String × JVal)

/-- `view` (source lines 146-155): guard on `resource.view`; return
labels, the viewable non-system fields, and the resolved record. -/
def viewH (ctx : Ctx) : List Effect × Except Err ViewResult :=
  match guard ctx.user (ctx.resource ++ ".view") with
  | .error e => ([], .error e)
  | .ok _ =>
    ([.buildOptions],
     .ok { labels := ctx.Model.labels,
           fields := ctx.Model.fields.filter
             (fun kv => !(kv.2.viewable == some false || kv.1 == "_actions")),
           model := ctx.model })

/-- The payload filter of `store` (source line 161):
`_.omitBy(request.all(), (v, k) => !auth.user.isRole(fields[k].role))`.
The callee `auth.user.isRole` is resolved first (TypeError on a missing
user), then the argument `fields[k].role` (TypeError when `fields[k]`
is `undefined`); a key is kept iff `isRole(fields[k].role)` is true. -/
def filterByRole (user : Option Actor)
    (fields : List (String × FieldDescriptor)) :
    List (String × JVal) → Except Err (List (String × JVal))
  | [] => .ok []
  | (k, v) :: rest =>
    match user with
    | none => .error (.typeError "Cannot read properties of null (reading isRole)")
    | some u =>
      match lookupField fields k with
      | none => .error (.typeError "Cannot read properties of undefined (reading role)")
      | some fd =>
        (filterByRole user fields rest).map
          (fun r => if u.isRole fd.role then (k, v) :: r else r)

/-- `store` (source lines 157-168): guard on `resource.create`; filter
the payload by the actor's field-level role; validate; merge into the
(fresh) model; save; return the model. -/
def storeH (ctx : Ctx) : List Effect × Except Err (List (String × JVal)) :=
  match guard ctx.user (ctx.resource ++ ".create") with
  | .error e => ([], .error e)
  | .ok _ =>
    match filterByRole ctx.user ctx.Model.fields ctx.reqAll with
    | .error e => ([], .error e)
    | .ok data =>
      match ctx.validate data with
      | .error e => ([.validateE data], .error e)
      | .ok _ =>
        let merged := mergeObj ctx.model data
        ([.validateE data, .saveE merged], .ok merged)

/-- `update` (source lines 174-182): guard on `resource.update`; the
raw `request.all()` payload is validated, merged and saved with no
filtering of any kind. -/
def updateH (ctx : Ctx) : List Effect × Except Err (List (String × JVal)) :=
  match guard ctx.user (ctx.resource ++ ".update") with
  | .error e => ([], .error e)
  | .ok _ =>
    let data := ctx.reqAll
    match ctx.validate data with
    | .error e => ([.validateE data], .error e)
    | .ok _ =>
      let merged := mergeObj ctx.model data
      ([.validateE data, .saveE merged], .ok merged)

/-- `destroy` (source lines 184-190): guard on `resource.delete`;
delete the resolved record; return `{success: true}`. -/
def destroyH (ctx : Ctx) : List Effect × Except Err Bool :=
  match guard ctx.user (ctx.resource ++ ".delete") with
  | .error e => ([], .error e)
  | .ok _ => ([.deleteModel], .ok true)

/-- Whether a row satisfies a `where` object under the simple
equality-constraint semantics (each string constraint must equal the
row's value at that key). -/
def rowMatches (w : List (String × JVal)) (row : Row) : Bool :=
  w.all (fun kv =>
    match kv.2 with
    | .str s => (row.find? (fun c => c.1 == kv.1)).map Prod.snd == some s
    | _ => false)

/-- The storage engine's `query(spec).delete()`: remove every row
matching the spec's `where` object. -/
def execDelete (w : List (String × JVal)) (db : List Row) : List Row :=
  db.filter (fun r => !(rowMatches w r))

/-- `destroyAll` (source lines 192-199): guard on
`resource.delete_all`; then `Model.query().delete()` — the query is
built with NO arguments, so the delete runs with an empty `where`
object whatever filter the request carried; returns `{success: true}`.
The database contents are threaded explicitly to expose the mutation. -/
def destroyAllH (ctx : Ctx) (db : List Row) :
    (List Effect × Except Err Bool) × List Row :=
  match guard ctx.user (ctx.resource ++ ".delete_all") with
  | .error e => (([], .error e), db)
  | .ok _ => (([.deleteWhere []], .ok true), execDelete [] db)

/-- The `where` rewriting of `options` (source lines 204-213): when the
parsed `where` has a truthy constraint at the `text` key, and `text`
contains a space, each space-separated field becomes a case-insensitive
regex disjunct, the literal key is deleted and `$or` is assigned; when
`text` has no space, the literal constraint is left in place and `$or`
is assigned the (still empty) disjunct list. -/
def transformWhere (text : String) (w : List (String × JVal)) :
    List (String × JVal) :=
  match objGet w text with
  | some v =>
    if jsTruthy v then
      if jsIncludesSpace text then
        let orWhere := (splitOnChar ' ' text).map
          (fun f => JVal.obj [(f, .regex (jsToString v) "i")])
        objSet (objDelete w text) "$or" (.arr orWhere)
      else
        objSet w "$or" (.arr [])
    else w
  | none => w

/-- The already-parsed inputs of `options` (source line 202-203):
`request.all()` destructured with defaults `text='name'`, `value='_id'`,
`where='{}'` (JSON-decoded before this step), `limit=10`. -/
structure OptionsArgs where
  text : String := "name"
  value : String := "_id"
  whereJ : List (String × JVal) := []
  limit : Int := 10

/-- `options` (source lines 201-216): rewrite the `where` object with
`transformWhere`, then `Model.fetchOptions(value, text, where, limit)`. -/
def optionsH (eng : Engine) (args : OptionsArgs) :
    List Effect × List (String × String) :=
  let w := transformWhere args.text args.whereJ
  ([.fetchOptionsE args.value args.text w args.limit],
   eng.fetchOptions args.value args.text w args.limit)

/-- JS object-assignment fold used by `_.keyBy`: a repeated key keeps
its first position but takes the later value. -/
def upsertCount (o : List (String × Nat)) (k : String) (n : Nat) :
    List (String × Nat) :=
  if o.any (fun kv => kv.1 == k) then
    o.map (fun kv => if kv.1 == k then (k, n) else kv)
  else
    o ++ [(k, n)]

/-- The `stat` response object. -/
structure StatResult where
  labels : List String
  data : List Nat
  backgroundColor : List String
deriving Repr

/-- `stat` (source lines 218-238): guard on `resource.stat`; group by
`request.input('group', 'os')`; key the grouped counts by `_id` and
project counts; return chart labels/data with the fixed 4-color
palette. -/
def statH (eng : Engine) (ctx : Ctx) : List Effect × Except Err StatResult :=
  match guard ctx.user (ctx.resource ++ ".stat") with
  | .error e => ([], .error e)
  | .ok _ =>
    let group := (ctx.reqInput "group").getD "os"
    let keyed := (eng.groupedCount group).foldl
      (fun acc kv => upsertCount acc kv.1 kv.2) []
    ([.groupedCountE group],
     .ok { labels := keyed.map Prod.fst, data := keyed.map Prod.snd,
           backgroundColor := ["#41B883", "#E46651", "#00D8FF", "#DD1B16"] })

/-! ## Basic lemmas about the JS-object operations -/

theorem find_map_overwrite (k : String) (v : JVal)
    (o : List (String × JVal)) (h : o.any (fun kv => kv.1 == k) = true) :
    ((o.map fun kv => if kv.1 == k then (k, v) else kv).find?
      (fun kv => kv.1 == k)) = some (k, v) := by
  induction o with
  | nil => simp at h
  | cons hd tl ih =>
    cases hk : (hd.1 == k) with
    | true =>
      rw [List.map_cons, if_pos hk]
      exact List.find?_cons_of_pos _ (by simp)
    | false =>
      have htl : tl.any (fun kv => kv.1 == k) = true := by
        simpa [hk] using h
      rw [List.map_cons, if_neg (by rw [hk]; exact Bool.false_ne_true),
        List.find?_cons_of_neg _ (by rw [hk]; exact Bool.false_ne_true)]
      exact ih htl

theorem find_append_fresh (k : String) (v : JVal)
    (o : List (String × JVal)) (h : o.any (fun kv => kv.1 == k) = false) :
    ((o ++ [(k, v)]).find? (fun kv => kv.1 == k)) = some (k, v) := by
  induction o with
  | nil =>
    rw [List.nil_append]
    exact List.find?_cons_of_pos _ (by simp)
  | cons hd tl ih =>
    cases hk : (hd.1 == k) with
    | true => simp [hk] at h
    | false =>
      have htl : tl.any (fun kv => kv.1 == k) = false := by
        simpa [hk] using h
      rw [List.cons_append,
        List.find?_cons_of_neg _ (by rw [hk]; exact Bool.false_ne_true)]
      exact ih htl

/-- Reading back the key just assigned yields the assigned value. -/
theorem objGet_objSet_self (o : List (String × JVal)) (k : String) (v : JVal) :
    objGet (objSet o k v) k = some v := by
  unfold objGet objSet
  cases ha : o.any (fun kv => kv.1 == k) with
  | true => rw [if_pos rfl, find_map_overwrite k v o ha]; rfl
  | false =>
    rw [if_neg Bool.false_ne_true, find_append_fresh k v o ha]
    rfl

theorem find_map_overwrite_ne (k k' : String) (v : JVal)
    (h : k ≠ k') (o : List (String × JVal)) :
    ((o.map fun kv => if kv.1 == k' then (k', v) else kv).find?
      (fun kv => kv.1 == k)) = o.find? (fun kv => kv.1 == k) := by
  induction o with
  | nil => rfl
  | cons hd tl ih =>
    cases hk : (hd.1 == k') with
    | true =>
      have h1 : (k' == k) = false := beq_eq_false_iff_ne.2 (Ne.symm h)
      have h2 : (hd.1 == k) = false := by
        have he : hd.1 = k' := by simpa using hk
        rw [he]; exact h1
      rw [List.map_cons, if_pos hk,
        List.find?_cons_of_neg _ (by rw [h1]; exact Bool.false_ne_true),
        List.find?_cons_of_neg _ (by rw [h2]; exact Bool.false_ne_true)]
      exact ih
    | false =>
      rw [List.map_cons, if_neg (by rw [hk]; exact Bool.false_ne_true)]
      cases hk2 : (hd.1 == k) with
      | true =>
        rw [List.find?_cons_of_pos (p := fun kv : String × JVal => kv.1 == k) _ hk2,
          List.find?_cons_of_pos (p := fun kv : String × JVal => kv.1 == k) _ hk2]
      | false =>
        rw [List.find?_cons_of_neg _ (by rw [hk2]; exact Bool.false_ne_true),
          List.find?_cons_of_neg _ (by rw [hk2]; exact Bool.false_ne_true)]
        exact ih

/-- Assignment at one key does not affect lookups at a different key. -/
theorem objGet_objSet_ne (o : List (String × JVal)) (k k' : String)
    (v : JVal) (h : k ≠ k') :
    objGet (objSet o k' v) k = objGet o k := by
  unfold objGet objSet
  cases ha : o.any (fun kv => kv.1 == k') with
  | true => rw [if_pos rfl, find_map_overwrite_ne k k' v h o]
  | false =>
    have h1 : (k' == k) = false := beq_eq_false_iff_ne.2 (Ne.symm h)
    rw [if_neg Bool.false_ne_true, List.find?_append]
    have hlast : (([(k', v)] : List (String × JVal)).find?
        (fun kv => kv.1 == k)) = none := by
      rw [List.find?_cons_of_neg _ (by rw [h1]; exact Bool.false_ne_true)]
      rfl
    cases hfo : o.find? (fun kv => kv.1 == k) with
    | some x => rfl
    | none => rw [hlast]; rfl

/-- Deleting a key removes it. -/
theorem objGet_objDelete_self (o : List (String × JVal)) (k : String) :
    objGet (objDelete o k) k = none := by
  unfold objGet objDelete
  induction o with
  | nil => rfl
  | cons hd tl ih =>
    cases hk : (hd.1 == k) with
    | true =>
      have hb : (hd.1 != k) = false := by rw [bne, hk]; rfl
      rw [List.filter_cons, hb, if_neg Bool.false_ne_true]
      exact ih
    | false =>
      have hb : (hd.1 != k) = true := by rw [bne, hk]; rfl
      rw [List.filter_cons, hb, if_pos rfl,
        List.find?_cons_of_neg _ (by rw [hk]; exact Bool.false_ne_true)]
      exact ih

/-! ## Concrete fixtures used by witnesses and counterexamples -/

/-- A capability check that denies every permission. -/
def denyAllFn : String → Bool := fun _ => false

/-- A capability check that grants every permission. -/
def allowAllFn : String → Bool := fun _ => true

/-- An actor whose `can` denies everything. -/
def denyAllActor : Actor := { can := some denyAllFn }

/-- The identity stand-in for `inflection.titleize` in witnesses. -/
def idTitleize : String → String := fun s => s

/-- An inert storage engine. -/
def engEmpty : Engine := {}

/-- A context for an entity `posts` requested by the deny-all actor. -/
def ctxDeny : Ctx :=
  { Model := { fields := [("name", {})] }, resource := "posts",
    user := some denyAllActor,
    reqAll := [("name", .str "x")] }

/-- A one-row database used to observe (non-)mutation. -/
def dbOne : List Row := [[("name", "a")]]

/-! ## C1 -/

/-- C1: for every actor that exposes a capability check `can` with
`can(P) = false`, each guarded handler (index, import, export, view,
store, update, destroy, destroyAll, stat) invoked as that actor on the
entity whose guarded action is `P` returns the Unauthorized (403) error
with an empty effect trace — no data access, mutation, or other side
effect — and `destroyAll` leaves the database unchanged. -/
theorem C1_guard_aborts (restrictField : String) (titleize : String → String)
    (eng : Engine) (ctx : Ctx) (db : List Row) (u : Actor) (f : String → Bool)
    (hu : ctx.user = some u) (hcan : u.can = some f) :
    (f (ctx.resource ++ ".index") = false →
      indexH restrictField eng ctx = ([], .error unauthorizedErr)) ∧
    (f (ctx.resource ++ ".import") = false →
      importH ctx = ([], .error unauthorizedErr)) ∧
    (f (ctx.resource ++ ".export") = false →
      exportH titleize eng ctx = ([], .error unauthorizedErr)) ∧
    (f (ctx.resource ++ ".view") = false →
      viewH ctx = ([], .error unauthorizedErr)) ∧
    (f (ctx.resource ++ ".create") = false →
      storeH ctx = ([], .error unauthorizedErr)) ∧
    (f (ctx.resource ++ ".update") = false →
      updateH ctx = ([], .error unauthorizedErr)) ∧
    (f (ctx.resource ++ ".delete") = false →
      destroyH ctx = ([], .error unauthorizedErr)) ∧
    (f (ctx.resource ++ ".delete_all") = false →
      destroyAllH ctx db = (([], .error unauthorizedErr), db)) ∧
    (f (ctx.resource ++ ".stat") = false →
      statH eng ctx = ([], .error unauthorizedErr)) := by
  have hg : ∀ a : String, f a = false →
      guard ctx.user a = .error unauthorizedErr := by
    intro a ha
    simp [guard, hu, hcan, ha]
  refine ⟨?_, ?_, ?_, ?_, ?_, ?_, ?_, ?_, ?_⟩ <;> intro h
  · simp [indexH, hg _ h]
  · simp [importH, hg _ h]
  · simp [exportH, hg _ h]
  · simp [viewH, hg _ h]
  · simp [storeH, hg _ h]
  · simp [updateH, hg _ h]
  · simp [destroyH, hg _ h]
  · simp [destroyAllH, hg _ h]
  · simp [statH, hg _ h]

/-- C1 witness: the deny-all actor on `posts` is rejected by all nine
guarded handlers with an empty trace, and `destroyAll` leaves the
one-row database intact. -/
theorem C1_guard_aborts_witness :
    indexH "user_ids" engEmpty ctxDeny = ([], .error unauthorizedErr) ∧
    importH ctxDeny = ([], .error unauthorizedErr) ∧
    exportH idTitleize engEmpty ctxDeny = ([], .error unauthorizedErr) ∧
    viewH ctxDeny = ([], .error unauthorizedErr) ∧
    storeH ctxDeny = ([], .error unauthorizedErr) ∧
    updateH ctxDeny = ([], .error unauthorizedErr) ∧
    destroyH ctxDeny = ([], .error unauthorizedErr) ∧
    destroyAllH ctxDeny dbOne = (([], .error unauthorizedErr), dbOne) ∧
    statH engEmpty ctxDeny = ([], .error unauthorizedErr) := by
  have h := C1_guard_aborts "user_ids" idTitleize engEmpty ctxDeny dbOne
    denyAllActor denyAllFn rfl rfl
  exact ⟨h.1 rfl, h.2.1 rfl, h.2.2.1 rfl, h.2.2.2.1 rfl, h.2.2.2.2.1 rfl,
    h.2.2.2.2.2.1 rfl, h.2.2.2.2.2.2.1 rfl, h.2.2.2.2.2.2.2.1 rfl,
    h.2.2.2.2.2.2.2.2 rfl⟩

/-! ## C2 -/

/-- C2: `guard(actor, P)` fails with the Unauthorized (403) error exactly
when the actor exists, exposes a capability check `can`, and `can(P)`
returns false; for an absent actor, an actor lacking `can`, or a `can`
returning true, `guard` returns normally. -/
theorem C2_guard_characterization (user : Option Actor) (P : String) :
    (guard user P = .error unauthorizedErr ↔
      ∃ u f, user = some u ∧ u.can = some f ∧ f P = false) ∧
    (guard user P = .ok () ↔
      (user = none ∨ ∃ u, user = some u ∧
        (u.can = none ∨ ∃ f, u.can = some f ∧ f P = true))) := by
  rcases user with _ | u
  · constructor
    · simp [guard]
    · simp [guard]
  · rcases hc : u.can with _ | f
    · constructor
      · simp [guard, hc]
      · simp [guard, hc]
    · cases hf : f P
      · constructor
        · constructor
          · intro _
            exact ⟨u, f, rfl, hc, hf⟩
          · intro _
            simp [guard, hc, hf]
        · constructor
          · intro hcontra
            simp [guard, hc, hf] at hcontra
          · rintro (h | ⟨u', hu', (hcn | ⟨f', hf', htrue⟩)⟩)
            · exact absurd h (by simp)
            · rw [Option.some_inj] at hu'
              rw [← hu'] at hcn
              rw [hcn] at hc
              exact absurd hc (by simp)
            · rw [Option.some_inj] at hu'
              rw [← hu'] at hf'
              rw [hf'] at hc
              rw [Option.some_inj] at hc
              rw [hc] at htrue
              rw [htrue] at hf
              exact absurd hf (by simp)
      · constructor
        · constructor
          · intro hcontra
            simp [guard, hc, hf] at hcontra
          · rintro ⟨u', f', hu', hf', hfalse⟩
            rw [Option.some_inj] at hu'
            rw [← hu'] at hf'
            rw [hf'] at hc
            rw [Option.some_inj] at hc
            rw [hc] at hfalse
            rw [hfalse] at hf
            exact absurd hf (by simp)
        · constructor
          · intro _
            exact .inr ⟨u, rfl, .inr ⟨f, hc, hf⟩⟩
          · intro _
            simp [guard, hc, hf]

/-! ## C3 -/

/-- C3: for an actor whose permissions include the scoping capability
`groups.@`, `index` overwrites `query.where[restrictField]` (the
configured ownership field) with the actor's stringified identifier, so
the executed fetch and count queries constrain that field to the
actor's id regardless of any client-supplied constraint on it. -/
theorem C3_index_scoping (restrictField : String) (eng : Engine) (ctx : Ctx)
    (u : Actor) (perms : List String)
    (hu : ctx.user = some u)
    (hok : guard ctx.user (ctx.resource ++ ".index") = .ok ())
    (hp : u.getPermissions = some perms)
    (hg : perms.contains "groups.@" = true) :
    ∃ bq rest,
      (indexH restrictField eng ctx).1 =
        .fetchQ bq :: .countQ bq.spec :: rest ∧
      bq.spec.whereC = objSet ctx.query.whereC restrictField (.str u.userId) ∧
      objGet bq.spec.whereC restrictField = some (.str u.userId) := by
  rw [hu] at hok
  simp only [indexH, hu, hok, hp, hg, if_true]
  refine ⟨_, _, rfl, rfl, ?_⟩
  exact objGet_objSet_self ctx.query.whereC restrictField (.str u.userId)

/-- A scoped actor with id 42. -/
def scopedActor : Actor :=
  { can := none, getPermissions := some ["groups.@"], userId := "42" }

/-- A context whose client-supplied `where` already constrains the
ownership field to a different value. -/
def ctxScoped : Ctx :=
  { Model := { fields := [("name", {})] }, resource := "posts",
    user := some scopedActor,
    query := { whereC := [("user_ids", .str "somebody-else")] } }

/-- C3 witness: the client-supplied `user_ids` constraint is overwritten
with the scoped actor's own id. -/
theorem C3_index_scoping_witness :
    ∃ bq rest,
      (indexH "user_ids" engEmpty ctxScoped).1 =
        .fetchQ bq :: .countQ bq.spec :: rest ∧
      bq.spec.whereC =
        objSet ctxScoped.query.whereC "user_ids" (.str "42") ∧
      objGet bq.spec.whereC "user_ids" = some (.str "42") :=
  C3_index_scoping "user_ids" engEmpty ctxScoped scopedActor ["groups.@"]
    rfl rfl rfl (by decide)

/-! ## C8 -/

/-- `(t + pp - 1) / pp` is the rational ceiling of `t / pp`. -/
theorem jsCeilDiv_eq_ceil (t pp : Nat) (h : 0 < pp) :
    jsCeilDiv t pp = ⌈(t : ℚ) / (pp : ℚ)⌉₊ := by
  have hq : (0 : ℚ) < (pp : ℚ) := by exact_mod_cast h
  apply le_antisymm
  · have h1 : (t : ℚ) ≤ ((⌈(t : ℚ) / (pp : ℚ)⌉₊ : ℚ) * (pp : ℚ)) := by
      have hle := Nat.le_ceil ((t : ℚ) / (pp : ℚ))
      rw [div_le_iff₀ hq] at hle
      exact hle
    have h2 : t ≤ ⌈(t : ℚ) / (pp : ℚ)⌉₊ * pp := by exact_mod_cast h1
    have h3 : t + pp - 1 < (⌈(t : ℚ) / (pp : ℚ)⌉₊ + 1) * pp := by
      have := Nat.one_le_iff_ne_zero.mp h
      calc t + pp - 1 ≤ ⌈(t : ℚ) / (pp : ℚ)⌉₊ * pp + pp - 1 := by omega
        _ < (⌈(t : ℚ) / (pp : ℚ)⌉₊ + 1) * pp := by
            have : (⌈(t : ℚ) / (pp : ℚ)⌉₊ + 1) * pp =
                ⌈(t : ℚ) / (pp : ℚ)⌉₊ * pp + pp := by ring
            omega
    have h4 := (Nat.div_lt_iff_lt_mul h).mpr h3
    unfold jsCeilDiv
    omega
  · rw [Nat.ceil_le, div_le_iff₀ hq]
    have hnat : t ≤ pp * ((t + pp - 1) / pp) := by
      have hd := Nat.div_add_mod (t + pp - 1) pp
      have hm := Nat.mod_lt (t + pp - 1) h
      omega
    unfold jsCeilDiv
    rw [mul_comm]
    exact_mod_cast hnat

/-- C8: for every index request that executes (with `perPage` defaulting
to 20 and positive), the executed query's offset is
`(page - 1) * perPage`, its limit is `perPage`, and the returned page
satisfies `lastPage = ceil(total / perPage)`. -/
theorem C8_index_pagination (restrictField : String) (eng : Engine)
    (ctx : Ctx) (u : Actor)
    (hu : ctx.user = some u)
    (hok : guard ctx.user (ctx.resource ++ ".index") = .ok ())
    (hpp : 0 < ctx.query.perPage.getD 20) :
    ∃ bq rest r,
      (indexH restrictField eng ctx).1 = .fetchQ bq :: rest ∧
      (indexH restrictField eng ctx).2 = .ok r ∧
      bq.skip = some ((ctx.query.page - 1) *
        ((ctx.query.perPage.getD 20 : Nat) : Int)) ∧
      bq.limit = some (ctx.query.perPage.getD 20) ∧
      r.perPage = ctx.query.perPage.getD 20 ∧
      r.lastPage = ⌈(r.total : ℚ) / ((ctx.query.perPage.getD 20 : Nat) : ℚ)⌉₊ := by
  rw [hu] at hok
  cases hperm : u.getPermissions with
  | none =>
    simp only [indexH, hu, hok, hperm]
    refine ⟨_, _, _, rfl, rfl, rfl, rfl, rfl, ?_⟩
    exact jsCeilDiv_eq_ceil _ _ hpp
  | some perms =>
    cases hcont : perms.contains "groups.@" with
    | true =>
      simp only [indexH, hu, hok, hperm, hcont, if_true]
      refine ⟨_, _, _, rfl, rfl, rfl, rfl, rfl, ?_⟩
      exact jsCeilDiv_eq_ceil _ _ hpp
    | false =>
      simp only [indexH, hu, hok, hperm, hcont, Bool.false_eq_true, if_false]
      refine ⟨_, _, _, rfl, rfl, rfl, rfl, rfl, ?_⟩
      exact jsCeilDiv_eq_ceil _ _ hpp

/-- An engine whose count query reports 45 records. -/
def engCount45 : Engine := { count := fun _ => 45 }

/-- A plain actor with no capability check and no scoping capability. -/
def plainActor : Actor := { can := none }

/-- A request for page 2 with perPage 20. -/
def ctxPage2 : Ctx :=
  { Model := { fields := [("name", {})] }, resource := "posts",
    user := some plainActor,
    query := { page := 2, perPage := some 20 } }

/-- C8 witness: page=2, perPage=20, total=45 gives offset 20 and
lastPage 3. -/
theorem C8_index_pagination_witness :
    (∃ bq rest r,
      (indexH "user_ids" engCount45 ctxPage2).1 = .fetchQ bq :: rest ∧
      (indexH "user_ids" engCount45 ctxPage2).2 = .ok r ∧
      bq.skip = some ((ctxPage2.query.page - 1) *
        ((ctxPage2.query.perPage.getD 20 : Nat) : Int)) ∧
      bq.limit = some (ctxPage2.query.perPage.getD 20) ∧
      r.perPage = ctxPage2.query.perPage.getD 20 ∧
      r.lastPage = ⌈(r.total : ℚ) /
        ((ctxPage2.query.perPage.getD 20 : Nat) : ℚ)⌉₊) ∧
    (∃ rest r, (indexH "user_ids" engCount45 ctxPage2).1 =
        .fetchQ { spec := ctxPage2.query, select := ["name"],
                  skip := some 20, limit := some 20,
                  ignoreSoftDeletes := false } :: rest ∧
      (indexH "user_ids" engCount45 ctxPage2).2 = .ok r ∧
      r.total = 45 ∧ r.lastPage = 3) := by
  constructor
  · exact C8_index_pagination "user_ids" engCount45 ctxPage2 plainActor
      rfl rfl (by decide)
  · exact ⟨_, _, rfl, rfl, rfl, rfl⟩

/-! ## C4 and C5: what store/update actually filter -/

/-- When every payload key names a declared field, the `store` payload
filter succeeds and keeps exactly the keys whose role check passes. -/
theorem filterByRole_total (u : Actor)
    (fields : List (String × FieldDescriptor)) :
    ∀ l : List (String × JVal),
      (∀ kv ∈ l, (lookupField fields kv.1).isSome) →
      filterByRole (some u) fields l = .ok (l.filter (fun kv =>
        match lookupField fields kv.1 with
        | some fd => u.isRole fd.role
        | none => false)) := by
  intro l
  induction l with
  | nil => intro _; rfl
  | cons hd tl ih =>
    obtain ⟨k, v⟩ := hd
    intro h
    have hh := h (k, v) (List.mem_cons_self _ _)
    cases hlf : lookupField fields k with
    | none => rw [hlf] at hh; simp at hh
    | some fd =>
      have ht := ih (fun kv hm => h kv (List.mem_cons_of_mem _ hm))
      simp only [filterByRole, hlf, ht, Except.map, List.filter_cons]

/-- An actor that is allowed everything and holds every role. -/
def permissiveActor : Actor := { can := none, isRole := fun _ => true }

/-- A context whose single submitted field is declared `editable:false`
(and carries no role restriction). -/
def ctxEditable : Ctx :=
  { Model := { fields := [("locked", { editable := some false })] },
    resource := "posts", user := some permissiveActor,
    reqAll := [("locked", .str "x")] }

/-- C4 counterexample: a submitted field whose descriptor has
`editable:false` is NOT removed before validation — in both `store` and
`update` it reaches the validator and the persisted merge unchanged. -/
theorem C4_counterexample :
    (storeH ctxEditable).1 =
      [.validateE [("locked", .str "x")], .saveE [("locked", .str "x")]] ∧
    (updateH ctxEditable).1 =
      [.validateE [("locked", .str "x")], .saveE [("locked", .str "x")]] := by
  constructor <;> rfl

/-- C4 amended: the only payload filtering `store` performs before
validation is the role check — a submitted field is dropped iff the
actor's `isRole(field.role)` is false; `editable:false` is never
consulted — and `update` performs no payload filtering at all. -/
theorem C4_store_role_filter_only (ctx : Ctx) (u : Actor)
    (hu : ctx.user = some u)
    (hkeys : ∀ kv ∈ ctx.reqAll, (lookupField ctx.Model.fields kv.1).isSome)
    (hokc : guard ctx.user (ctx.resource ++ ".create") = .ok ())
    (hoku : guard ctx.user (ctx.resource ++ ".update") = .ok ()) :
    (∃ rest, (storeH ctx).1 =
      .validateE (ctx.reqAll.filter (fun kv =>
        match lookupField ctx.Model.fields kv.1 with
        | some fd => u.isRole fd.role
        | none => false)) :: rest) ∧
    (∃ rest, (updateH ctx).1 = .validateE ctx.reqAll :: rest) := by
  have hf := filterByRole_total u ctx.Model.fields ctx.reqAll hkeys
  rw [← hu] at hf
  constructor
  · simp only [storeH, hokc, hf]
    cases hv : ctx.validate (ctx.reqAll.filter (fun kv =>
        match lookupField ctx.Model.fields kv.1 with
        | some fd => u.isRole fd.role
        | none => false)) with
    | error e => exact ⟨_, rfl⟩
    | ok _ => exact ⟨_, rfl⟩
  · simp only [updateH, hoku]
    cases hv : ctx.validate ctx.reqAll with
    | error e => exact ⟨_, rfl⟩
    | ok _ => exact ⟨_, rfl⟩

/-- A context with an `editable:false` field the actor may write and a
role-guarded field the actor may not. -/
def ctxMixed : Ctx :=
  { Model := { fields :=
      [("locked", { editable := some false }),
       ("advanced", { role := some "admin" })] },
    resource := "posts",
    user := some { can := none, isRole := fun r => r != some "admin" },
    reqAll := [("locked", .str "x"), ("advanced", .str "y")] }

/-- C4 witness: in `store` the role-guarded field is dropped while the
`editable:false` field survives to validation; `update` validates the
raw payload. -/
theorem C4_store_role_filter_only_witness :
    (∃ rest, (storeH ctxMixed).1 =
      .validateE (ctxMixed.reqAll.filter (fun kv =>
        match lookupField ctxMixed.Model.fields kv.1 with
        | some fd => Actor.isRole
          { can := none, isRole := fun r => r != some "admin" } fd.role
        | none => false)) :: rest) ∧
    (∃ rest, (updateH ctxMixed).1 = .validateE ctxMixed.reqAll :: rest) :=
  C4_store_role_filter_only ctxMixed
    { can := none, isRole := fun r => r != some "admin" }
    rfl (by decide) rfl rfl

/-- An actor holding no role at all. -/
def noRoleActor : Actor := { can := none, isRole := fun _ => false }

/-- A context with one role-guarded field, requested by the no-role
actor. -/
def ctxRole : Ctx :=
  { Model := { fields := [("a", { role := some "admin" })] },
    resource := "posts", user := some noRoleActor,
    reqAll := [("a", .str "1")] }

/-- C5 counterexample: for the same actor and payload, `store` passes
the role-filtered payload (here empty) to validate/merge while `update`
passes the raw payload — the two payloads differ, refuting the claim
that update applies the same filtering as store. -/
theorem C5_counterexample :
    (storeH ctxRole).1 = [.validateE [], .saveE []] ∧
    (updateH ctxRole).1 =
      [.validateE [("a", .str "1")], .saveE [("a", .str "1")]] ∧
    ([] : List (String × JVal)) ≠ [("a", JVal.str "1")] := by
  refine ⟨rfl, rfl, ?_⟩
  intro h
  simp at h

/-- C5 amended: `update` applies no payload filtering whatsoever — the
raw `request.all()` payload is what reaches validation (and, on
success, the merge), unlike `store`, which drops fields whose role the
actor lacks. -/
theorem C5_update_unfiltered (ctx : Ctx)
    (hok : guard ctx.user (ctx.resource ++ ".update") = .ok ()) :
    ∃ rest, (updateH ctx).1 = .validateE ctx.reqAll :: rest := by
  simp only [updateH, hok]
  cases hv : ctx.validate ctx.reqAll with
  | error e => exact ⟨_, rfl⟩
  | ok _ => exact ⟨_, rfl⟩

/-- C5 witness: the no-role actor's update validates the raw payload. -/
theorem C5_update_unfiltered_witness :
    ∃ rest, (updateH ctxRole).1 = .validateE ctxRole.reqAll :: rest :=
  C5_update_unfiltered ctxRole rfl

/-! ## C6 -/

/-- Deleting with the empty `where` object removes every row. -/
theorem execDelete_nil (db : List Row) : execDelete [] db = [] := by
  induction db with
  | nil => rfl
  | cons hd tl ih =>
    simp only [execDelete, rowMatches, List.all_nil, Bool.not_true,
      List.filter_cons, Bool.false_eq_true, if_false] at ih ⊢
    exact ih

/-- A context carrying a client filter that matches only some rows. -/
def ctxFilter : Ctx :=
  { Model := { fields := [("name", {})] }, resource := "posts",
    user := none,
    query := { whereC := [("name", .str "match-me")] } }

/-- A two-row database of which only the first row matches the filter. -/
def dbTwo : List Row := [[("name", "match-me")], [("name", "other")]]

/-- C6 counterexample: with a filter matching only one of two rows,
`destroyAll` empties the database instead of deleting exactly the
matching set (which would leave the non-matching row). -/
theorem C6_counterexample :
    (destroyAllH ctxFilter dbTwo).2 = [] ∧
    execDelete ctxFilter.query.whereC dbTwo = [[("name", "other")]] ∧
    ([] : List Row) ≠ [[("name", "other")]] := by
  refine ⟨rfl, rfl, ?_⟩
  intro h
  simp at h

/-- C6 amended: after its guard passes, `destroyAll` ignores any
supplied filter entirely — `Model.query()` is built with no arguments,
so the delete runs against the empty `where` object and removes every
record — and returns `{success: true}`. -/
theorem C6_destroyAll_deletes_everything (ctx : Ctx) (db : List Row)
    (hok : guard ctx.user (ctx.resource ++ ".delete_all") = .ok ()) :
    destroyAllH ctx db = (([.deleteWhere []], .ok true), []) := by
  simp only [destroyAllH, hok, execDelete_nil]

/-- C6 witness: the empty-guard context empties the two-row database
and acknowledges success. -/
theorem C6_destroyAll_deletes_everything_witness :
    destroyAllH ctxFilter dbTwo = (([.deleteWhere []], .ok true), []) :=
  C6_destroyAll_deletes_everything ctxFilter dbTwo rfl

/-! ## C7 -/

/-- C7 counterexample: with a single-field `text` (`"name"`, no space)
and a constraint on that key, the literal key is NOT removed and the
`$or` list is left empty, instead of the claimed one-disjunct
case-insensitive regex OR. -/
theorem C7_counterexample :
    transformWhere "name" [("name", .str "abc")] =
      [("name", .str "abc"), ("$or", .arr [])] ∧
    objGet (transformWhere "name" [("name", .str "abc")]) "name" =
      some (.str "abc") := by
  constructor <;> rfl

/-- C7 amended: the conversion happens only when `text` contains a
space and the constraint value is truthy: then each space-separated
field of `text` becomes a case-insensitive regex disjunct on the
constraint value, `$or` is assigned the disjunct list, and the literal
key is removed; with a space-free `text` the literal constraint is kept
and `$or` is set to an empty list. -/
theorem C7_options_text_or (text : String) (w : List (String × JVal))
    (v : JVal)
    (hget : objGet w text = some v)
    (htr : jsTruthy v = true)
    (hsp : jsIncludesSpace text = true) :
    transformWhere text w =
      objSet (objDelete w text) "$or"
        (.arr ((splitOnChar ' ' text).map
          (fun f => .obj [(f, .regex (jsToString v) "i")]))) ∧
    objGet (transformWhere text w) text = none := by
  have hne : text ≠ "$or" := by
    intro he
    rw [he] at hsp
    exact absurd hsp (by decide)
  have ht : transformWhere text w =
      objSet (objDelete w text) "$or"
        (.arr ((splitOnChar ' ' text).map
          (fun f => .obj [(f, .regex (jsToString v) "i")]))) := by
    simp only [transformWhere, hget, htr, hsp, if_true]
  refine ⟨ht, ?_⟩
  rw [ht, objGet_objSet_ne _ _ _ _ hne, objGet_objDelete_self]

/-- C7 witness: `text:"name title"` with `where:{"name title":"abc"}`
yields an OR over `name` and `title` with the case-insensitive pattern
`abc`, and the combined literal key is gone. -/
theorem C7_options_text_or_witness :
    transformWhere "name title" [("name title", .str "abc")] =
      objSet (objDelete [("name title", .str "abc")] "name title") "$or"
        (.arr ((splitOnChar ' ' "name title").map
          (fun f => .obj [(f, .regex (jsToString (.str "abc")) "i")]))) ∧
    objGet (transformWhere "name title" [("name title", .str "abc")])
      "name title" = none :=
  C7_options_text_or "name title" [("name title", .str "abc")]
    (.str "abc") rfl rfl (by decide)

/-! ## C9 -/

/-- C9: for every export request that passes its guard, the executed
query carries no pagination (`skip` and `limit` were never applied),
the sheet's header row has exactly one cell per field whose descriptor
has `listable != false` excluding the system field `_actions` (the cell
being the field's label with fallback to the titleized key), and each
subsequent row corresponds to one fetched record in the original query
order. -/
theorem C9_export_sheet (titleize : String → String) (eng : Engine)
    (ctx : Ctx)
    (hok : guard ctx.user (ctx.resource ++ ".export") = .ok ()) :
    ∃ bq r,
      exportH titleize eng ctx =
        ([.buildOptions, .fetchQ bq] ++
          processData bq.spec (eng.fetch bq) ++ [.writeFile], .ok r) ∧
      bq.skip = none ∧ bq.limit = none ∧
      r.bq = bq ∧
      r.sheet =
        ((exportFields ctx.Model).map
            (fun kv => jsOrStr kv.2.label (titleize kv.1)))
          :: (eng.fetch bq).map (fun row =>
              (exportFields ctx.Model).map
                (fun kv => ctx.Model.getValue row kv.1)) := by
  simp only [exportH, hok]
  exact ⟨_, _, rfl, rfl, rfl, rfl, rfl⟩

/-- A model with a listable labelled field, a non-listable field and the
system `_actions` field, whose cell formatter looks values up in the
row. -/
def exportModel : Model :=
  { fields :=
      [("name", { label := some "Name" }),
       ("secret", { listable := some false }),
       ("_actions", {})],
    getValue := fun row k =>
      ((row.find? (fun c => c.1 == k)).map Prod.snd).getD "" }

/-- An engine returning two fixed rows for any query. -/
def engTwoRows : Engine :=
  { fetch := fun _ => [[("name", "a")], [("name", "b")]] }

/-- The export context over `exportModel` with no actor (the guard
falls through). -/
def ctxExport : Ctx := { Model := exportModel, resource := "posts" }

/-- C9 witness: the export sheet over the two-row engine has the single
listable non-system header cell `Name` and one row per record in fetch
order. -/
theorem C9_export_sheet_witness :
    (∃ bq r,
      exportH idTitleize engTwoRows ctxExport =
        ([.buildOptions, .fetchQ bq] ++
          processData bq.spec (engTwoRows.fetch bq) ++ [.writeFile], .ok r) ∧
      bq.skip = none ∧ bq.limit = none ∧
      r.bq = bq ∧
      r.sheet =
        ((exportFields ctxExport.Model).map
            (fun kv => jsOrStr kv.2.label (idTitleize kv.1)))
          :: (engTwoRows.fetch bq).map (fun row =>
              (exportFields ctxExport.Model).map
                (fun kv => ctxExport.Model.getValue row kv.1))) ∧
    (exportH idTitleize engTwoRows ctxExport).2 =
      .ok { bq := { spec := { withRel := some [] }, select := ["name"] },
            sheet := [["Name"], ["a"], ["b"]] } := by
  constructor
  · exact C9_export_sheet idTitleize engTwoRows ctxExport rfl
  · rfl

/-! ## C10 -/

/-- A payload containing any key with no declared field descriptor makes
the `store` payload filter raise a raw TypeError. -/
theorem filterByRole_missing (u : Actor)
    (fields : List (String × FieldDescriptor)) :
    ∀ l : List (String × JVal),
      (∃ kv ∈ l, lookupField fields kv.1 = none) →
      ∃ msg, filterByRole (some u) fields l = .error (.typeError msg) := by
  intro l
  induction l with
  | nil => rintro ⟨kv, hm, _⟩; cases hm
  | cons hd tl ih =>
    obtain ⟨k, v⟩ := hd
    rintro ⟨kv, hmem, hlk⟩
    cases hlf : lookupField fields k with
    | none =>
      exact ⟨"Cannot read properties of undefined (reading role)",
        by simp [filterByRole, hlf]⟩
    | some fd =>
      have htl : ∃ kv ∈ tl, lookupField fields kv.1 = none := by
        rcases List.mem_cons.mp hmem with he | hm
        · rw [he] at hlk
          rw [hlk] at hlf
          cases hlf
        · exact ⟨kv, hm, hlk⟩
      obtain ⟨msg, hmsg⟩ := ih htl
      exact ⟨msg, by simp [filterByRole, hlf, hmsg, Except.map]⟩

/-- C10: `store` evaluates `Model.fields[k].role` for every submitted
key, so a payload containing a key that names no declared field makes
`store` fail with a raw TypeError — before validation or persistence
(empty effect trace) — rather than dropping the key or raising a
structured error. -/
theorem C10_store_unknown_key (ctx : Ctx) (u : Actor) (k : String)
    (v : JVal)
    (hu : ctx.user = some u)
    (hok : guard ctx.user (ctx.resource ++ ".create") = .ok ())
    (hmem : (k, v) ∈ ctx.reqAll)
    (hmiss : lookupField ctx.Model.fields k = none) :
    ∃ msg, storeH ctx = ([], .error (.typeError msg)) := by
  obtain ⟨msg, hmsg⟩ :=
    filterByRole_missing u ctx.Model.fields ctx.reqAll ⟨(k, v), hmem, hmiss⟩
  rw [← hu] at hmsg
  exact ⟨msg, by simp [storeH, hok, hmsg]⟩

/-- A context submitting a key that names no declared field. -/
def ctxUnknownKey : Ctx :=
  { Model := { fields := [("name", {})] }, resource := "posts",
    user := some permissiveActor,
    reqAll := [("bogus", .str "1")] }

/-- C10 witness: submitting the undeclared key `bogus` makes `store`
fail with a TypeError and an empty effect trace. -/
theorem C10_store_unknown_key_witness :
    ∃ msg, storeH ctxUnknownKey = ([], .error (.typeError msg)) :=
  C10_store_unknown_key ctxUnknownKey permissiveActor "bogus" (.str "1")
    rfl rfl (List.mem_cons_self _ _) rfl

end AdonisRest
